import Mathlib

/-!
Shallow embedding of the Budgie local persistence layer, translated from
src/database/database.ts (expo-sqlite storage engine) and
src/database/schema.ts (row shapes).

Modelling conventions:
* SQLite REAL columns (monetary amounts) are embedded as Rat, INTEGER
  columns (timestamps, stored boolean flags) as Int.
* The four tables are lists of row structures inside a DB value; the
  module-level mutable handle of database.ts is an AppState carrying a
  connection flag next to the persisted store.
* Sources of nondeterminism of the code, generateUUID() and Date.now(),
  are passed to each operation as explicit arguments (newId, now).
* Fallible SQL statements return Option: none is a failed statement
  (primary-key violation on INSERT, or an OFFSET without LIMIT, which is
  a SQLite parse error).
* SQL ORDER BY is modelled with List.insertionSort over the relation of
  the ORDER BY clause; SUM over an empty row set is NULL, modelled by
  sqlSum returning none.
* JavaScript truthiness tests of the query builder, such as
  if (options?.endDate), are modelled by truthyInt / truthyStr: the
  number 0 and the empty string are falsy, so such a filter value is
  dropped from the WHERE clause.
-/

namespace Budgie

/-- Transaction type column, CHECK type IN (income, expense). -/
inductive TransactionType where
  | income
  | expense
deriving DecidableEq, Repr

/-- Budget and subscription period column, CHECK period IN (weekly, monthly, yearly). -/
inductive Period where
  | weekly
  | monthly
  | yearly
deriving DecidableEq, Repr

/-- Row of the transactions table, the Transaction interface of schema.ts.
Categories are kept as strings, as in the stored TEXT column. -/
structure Transaction where
  id : String
  amount : Rat
  type : TransactionType
  category : String
  description : Option String
  timestamp : Int
  createdAt : Int
  updatedAt : Int
deriving DecidableEq, Repr

/-- The TransactionInput interface of schema.ts: description and timestamp are optional. -/
structure TransactionInput where
  amount : Rat
  type : TransactionType
  category : String
  description : Option String
  timestamp : Option Int
deriving DecidableEq, Repr

/-- Row of the budgets table. The category column carries a UNIQUE constraint. -/
structure Budget where
  id : String
  category : String
  amount : Rat
  period : Period
  createdAt : Int
  updatedAt : Int
deriving DecidableEq, Repr

/-- Row of the subscriptions table as stored: notificationEnabled is an INTEGER column. -/
structure SubscriptionRow where
  id : String
  name : String
  amount : Rat
  currency : String
  billingPeriod : Period
  nextBillingDate : Int
  notificationEnabled : Int
  category : String
  createdAt : Int
  updatedAt : Int
deriving DecidableEq, Repr

/-- The Subscription interface of schema.ts, as returned by getSubscriptions:
notificationEnabled is decoded to a boolean. -/
structure Subscription where
  id : String
  name : String
  amount : Rat
  currency : String
  billingPeriod : Period
  nextBillingDate : Int
  notificationEnabled : Bool
  category : String
  createdAt : Int
  updatedAt : Int
deriving DecidableEq, Repr

/-- Row of the settings table as stored: notificationsEnabled is an INTEGER column. -/
structure SettingsRow where
  id : String
  dangerZoneAmount : Rat
  currency : String
  theme : String
  notificationsEnabled : Int
  createdAt : Int
  updatedAt : Int
deriving DecidableEq, Repr

/-- The persisted store: the four tables of budgie.db. -/
structure DB where
  transactions : List Transaction
  budgets : List Budget
  subscriptions : List SubscriptionRow
  settings : List SettingsRow
deriving DecidableEq, Repr

/-- The module state of database.ts: the nullable handle db next to the on-device store.
conn = true models db holding an open connection. -/
structure AppState where
  conn : Bool
  store : DB
deriving DecidableEq, Repr

/-- SQL SUM aggregate: NULL (none) on an empty row set, the total otherwise. -/
def sqlSum (l : List Rat) : Option Rat :=
  if l.isEmpty then none else some l.sum

/-- JavaScript truthiness of an optional number: 0 is falsy. -/
def truthyInt : Option Int → Option Int
  | some n => if n = 0 then none else some n
  | none => none

/-- JavaScript truthiness of an optional string: the empty string is falsy. -/
def truthyStr : Option String → Option String
  | some s => if s = "" then none else some s
  | none => none

/-- ORDER BY timestamp DESC, the ordering relation used by getTransactions. -/
def tsDesc (a b : Transaction) : Prop := b.timestamp ≤ a.timestamp

instance : DecidableRel tsDesc := fun a b => Int.decLe b.timestamp a.timestamp

instance : IsTotal Transaction tsDesc := ⟨fun a b => le_total b.timestamp a.timestamp⟩

instance : IsTrans Transaction tsDesc := ⟨fun _ _ _ h1 h2 => le_trans h2 h1⟩

/-- ORDER BY total DESC, the ordering of getSpendingByCategory result pairs. -/
def totalDesc (a b : String × Rat) : Prop := b.2 ≤ a.2

instance : DecidableRel totalDesc := fun a b => inferInstanceAs (Decidable (b.2 ≤ a.2))

instance : IsTotal (String × Rat) totalDesc := ⟨fun a b => le_total b.2 a.2⟩

instance : IsTrans (String × Rat) totalDesc := ⟨fun _ _ _ h1 h2 => le_trans h2 h1⟩

/-- ORDER BY nextBillingDate ASC on stored subscription rows. -/
def billingAsc (a b : SubscriptionRow) : Prop := a.nextBillingDate ≤ b.nextBillingDate

instance : DecidableRel billingAsc := fun a b => Int.decLe a.nextBillingDate b.nextBillingDate

instance : IsTotal SubscriptionRow billingAsc := ⟨fun a b => le_total a.nextBillingDate b.nextBillingDate⟩

instance : IsTrans SubscriptionRow billingAsc := ⟨fun _ _ _ h1 h2 => le_trans h1 h2⟩

/-- The same ascending relation on decoded subscriptions. -/
def billingAscSub (a b : Subscription) : Prop := a.nextBillingDate ≤ b.nextBillingDate

/-- The settings row inserted by initDatabase when the count check finds an empty table:
VALUES with id default, dangerZoneAmount 100, currency USD, theme system,
notificationsEnabled 1, both timestamps Date.now(). -/
def defaultSettingsRow (now : Int) : SettingsRow :=
  { id := "default", dangerZoneAmount := 100, currency := "USD", theme := "system",
    notificationsEnabled := 1, createdAt := now, updatedAt := now }

/-- initDatabase: when a connection already exists it is returned unchanged; otherwise the
store is opened (CREATE TABLE IF NOT EXISTS is a no-op in this model, where the four
tables always exist) and exactly one settings row is seeded iff the settings table is
empty (guarded by a COUNT check). -/
def initDatabase (now : Int) (s : AppState) : AppState :=
  if s.conn then s
  else
    let store :=
      if s.store.settings.isEmpty then
        { s.store with settings := [defaultSettingsRow now] }
      else s.store
    { conn := true, store := store }

/-- addTransaction: builds the record from the input, defaulting timestamp to now with
the null-coalescing operator, stamps createdAt and updatedAt with now, and inserts it.
The INSERT fails (none) when the fresh id collides with an existing primary key. -/
def addTransaction (input : TransactionInput) (newId : String) (now : Int) (db : DB) :
    Option (Transaction × DB) :=
  let t : Transaction :=
    { id := newId
      amount := input.amount
      type := input.type
      category := input.category
      description := input.description
      timestamp := input.timestamp.getD now
      createdAt := now
      updatedAt := now }
  if db.transactions.any (fun u => u.id == newId) then none
  else some (t, { db with transactions := db.transactions ++ [t] })

/-- getTransactionById: SELECT the first row WHERE id matches, null when absent. -/
def getTransactionById (id : String) (db : DB) : Option Transaction :=
  db.transactions.find? (fun t => t.id == id)

/-- deleteTransaction: DELETE FROM transactions WHERE id matches; returns changes > 0. -/
def deleteTransaction (id : String) (db : DB) : Bool × DB :=
  let remaining := db.transactions.filter (fun t => !(t.id == id))
  (decide (remaining.length < db.transactions.length),
   { db with transactions := remaining })

/-- The optional filter set accepted by getTransactions. -/
structure TransactionQuery where
  type : Option TransactionType
  category : Option String
  startDate : Option Int
  endDate : Option Int
  limit : Option Int
  offset : Option Int
deriving DecidableEq, Repr

/-- The query with every filter omitted. -/
def emptyQuery : TransactionQuery :=
  { type := none, category := none, startDate := none, endDate := none,
    limit := none, offset := none }

/-- Row predicate of the WHERE clause getTransactions builds: each condition is appended
only when the corresponding option is truthy in JavaScript (the type strings are always
truthy when present; a category equal to the empty string and date bounds equal to 0 are
falsy and silently dropped). Bounds are inclusive. -/
def txnWhere (q : TransactionQuery) (t : Transaction) : Bool :=
  (match q.type with
   | some ty => t.type == ty
   | none => true) &&
  (match truthyStr q.category with
   | some c => t.category == c
   | none => true) &&
  (match truthyInt q.startDate with
   | some sd => decide (sd ≤ t.timestamp)
   | none => true) &&
  (match truthyInt q.endDate with
   | some ed => decide (t.timestamp ≤ ed)
   | none => true)

/-- SQLite LIMIT clause: a negative limit means no limit. -/
def sqlLimit (n : Int) (l : List Transaction) : List Transaction :=
  if n < 0 then l else l.take n.toNat

/-- getTransactions: filters per txnWhere, orders by timestamp descending, then appends
LIMIT and OFFSET when truthy. The source appends OFFSET even when no LIMIT clause was
emitted, which is a SQLite parse error, modelled as none. A LIMIT with an OFFSET skips
the offset rows first, then takes at most limit rows. -/
def getTransactions (q : TransactionQuery) (db : DB) : Option (List Transaction) :=
  let rows := List.insertionSort tsDesc (db.transactions.filter (txnWhere q))
  match truthyInt q.limit, truthyInt q.offset with
  | some n, some k => some (sqlLimit n (rows.drop k.toNat))
  | some n, none => some (sqlLimit n rows)
  | none, some _ => none
  | none, none => some rows

/-- Inclusive timestamp range predicate shared by the aggregation queries. -/
def inRange (startDate endDate : Int) (t : Transaction) : Bool :=
  decide (startDate ≤ t.timestamp) && decide (t.timestamp ≤ endDate)

/-- Result shape of getTransactionSummary. -/
structure TransactionSummary where
  totalIncome : Rat
  totalExpenses : Rat
  balance : Rat
  transactionCount : Nat
deriving DecidableEq, Repr

/-- getTransactionSummary: three aggregate queries over the inclusive range; each SUM is
NULL-coalesced to 0, the balance is income minus expenses. -/
def getTransactionSummary (startDate endDate : Int) (db : DB) : TransactionSummary :=
  let totalIncome := (sqlSum ((db.transactions.filter
    (fun t => t.type == TransactionType.income && inRange startDate endDate t)).map
      (fun t => t.amount))).getD 0
  let totalExpenses := (sqlSum ((db.transactions.filter
    (fun t => t.type == TransactionType.expense && inRange startDate endDate t)).map
      (fun t => t.amount))).getD 0
  { totalIncome := totalIncome
    totalExpenses := totalExpenses
    balance := totalIncome - totalExpenses
    transactionCount := (db.transactions.filter (inRange startDate endDate)).length }

/-- getSpendingByCategory: expense rows in the inclusive range, GROUP BY category with a
summed total per group, ORDER BY total DESC. -/
def getSpendingByCategory (startDate endDate : Int) (db : DB) : List (String × Rat) :=
  let rows := db.transactions.filter
    (fun t => t.type == TransactionType.expense && inRange startDate endDate t)
  let cats := (rows.map (fun t => t.category)).dedup
  let groups := cats.map
    (fun c => (c, ((rows.filter (fun t => t.category == c)).map (fun t => t.amount)).sum))
  List.insertionSort totalDesc groups

/-- The DO UPDATE arm of the budget upsert: the conflicting row keeps its id and
createdAt, and takes amount, period and updatedAt from the excluded row. -/
def updateBudgetRow (category : String) (amount : Rat) (period : Period) (now : Int)
    (b : Budget) : Budget :=
  if b.category == category then
    { b with amount := amount, period := period, updatedAt := now }
  else b

/-- setBudget: builds a fresh record (fresh id, both timestamps now) and runs
INSERT ... ON CONFLICT(category) DO UPDATE SET amount, period, updatedAt. When the
category already exists the conflicting row is updated in place; otherwise the fresh row
is inserted (none on a primary-key id collision). The fresh record is returned in both
cases. -/
def setBudget (category : String) (amount : Rat) (period : Period) (newId : String)
    (now : Int) (db : DB) : Option (Budget × DB) :=
  let budget : Budget :=
    { id := newId, category := category, amount := amount, period := period,
      createdAt := now, updatedAt := now }
  if db.budgets.any (fun b => b.category == category) then
    some (budget,
      { db with budgets := db.budgets.map (updateBudgetRow category amount period now) })
  else if db.budgets.any (fun b => b.id == newId) then none
  else some (budget, { db with budgets := db.budgets ++ [budget] })

/-- getBudgets: SELECT * FROM budgets, no ordering clause. -/
def getBudgets (db : DB) : List Budget :=
  db.budgets

/-- deleteBudget: DELETE FROM budgets WHERE category matches; returns changes > 0. -/
def deleteBudget (category : String) (db : DB) : Bool × DB :=
  let remaining := db.budgets.filter (fun b => !(b.category == category))
  (decide (remaining.length < db.budgets.length), { db with budgets := remaining })

/-- Decoding applied by getSubscriptions to each stored row: the INTEGER
notificationEnabled column maps to true exactly when it is 1. -/
def decodeSubscription (r : SubscriptionRow) : Subscription :=
  { id := r.id, name := r.name, amount := r.amount, currency := r.currency,
    billingPeriod := r.billingPeriod, nextBillingDate := r.nextBillingDate,
    notificationEnabled := r.notificationEnabled == 1,
    category := r.category, createdAt := r.createdAt, updatedAt := r.updatedAt }

/-- getSubscriptions: SELECT * ORDER BY nextBillingDate ASC, each row decoded. -/
def getSubscriptions (db : DB) : List Subscription :=
  (List.insertionSort billingAsc db.subscriptions).map decodeSubscription

/-- clearAllData: deletes every transaction and budget row. -/
def clearAllData (db : DB) : DB :=
  { db with transactions := [], budgets := [] }

/-- The UNIQUE constraint on the budgets category column. -/
def budgetCategoriesUnique (db : DB) : Prop :=
  (db.budgets.map (fun b => b.category)).Nodup

instance (db : DB) : Decidable (budgetCategoriesUnique db) := by
  unfold budgetCategoriesUnique
  infer_instance

/-- Row predicate of claim C4 as the spec states it: the conjunction of every supplied
filter, with inclusive timestamp bounds; an omitted filter imposes no constraint. -/
def claimMatches (q : TransactionQuery) (t : Transaction) : Bool :=
  (q.type.all fun ty => t.type == ty) &&
  (q.category.all fun c => t.category == c) &&
  (q.startDate.all fun sd => decide (sd ≤ t.timestamp)) &&
  (q.endDate.all fun ed => decide (t.timestamp ≤ ed))

/-! Helper lemmas shared by the claim theorems. -/

/-- NULL-coalescing a SQL SUM to 0 yields the plain sum of the summed column. -/
theorem sqlSum_getD (l : List Rat) : (sqlSum l).getD 0 = l.sum := by
  cases l <;> simp [sqlSum]

/-- Filtering strictly shrinks a list that has an element failing the predicate. -/
theorem length_filter_lt {α : Type} {p : α → Bool} {l : List α} {x : α}
    (hx : x ∈ l) (hpx : p x = false) : (l.filter p).length < l.length := by
  induction l with
  | nil => cases hx
  | cons a l ih =>
    cases hx with
    | head =>
      rw [List.filter_cons, if_neg (by simp [hpx])]
      exact Nat.lt_succ_of_le (List.length_filter_le p l)
    | tail b hx =>
      rw [List.filter_cons]
      by_cases hpa : p a
      · rw [if_pos (by simp [hpa])]
        simpa using ih hx
      · rw [if_neg (by simp [hpa])]
        exact Nat.lt_succ_of_lt (ih hx)

/-! Concrete fixtures used by counterexamples and witnesses. -/

/-- The empty store. -/
def freshDB : DB :=
  { transactions := [], budgets := [], subscriptions := [], settings := [] }

/-- Module state before any initialization: no connection, empty store. -/
def freshState : AppState := { conn := false, store := freshDB }

/-- A sample stored transaction with event timestamp 5. -/
def sampleTxn : Transaction :=
  { id := "t1", amount := 7, type := TransactionType.expense, category := "food",
    description := none, timestamp := 5, createdAt := 0, updatedAt := 0 }

/-- A store holding just sampleTxn. -/
def sampleDB : DB := { freshDB with transactions := [sampleTxn] }

/-- C1: for every stored state and inclusive range, getTransactionSummary returns the
income sum, the expense sum, their difference as balance, and the count of all
transactions in range; when no transaction falls in the range every field is 0. -/
theorem getTransactionSummary_spec (db : DB) (sd ed : Int) :
    (getTransactionSummary sd ed db).totalIncome =
      ((db.transactions.filter
        (fun t => t.type == TransactionType.income && inRange sd ed t)).map
          (fun t => t.amount)).sum
  ∧ (getTransactionSummary sd ed db).totalExpenses =
      ((db.transactions.filter
        (fun t => t.type == TransactionType.expense && inRange sd ed t)).map
          (fun t => t.amount)).sum
  ∧ (getTransactionSummary sd ed db).balance =
      (getTransactionSummary sd ed db).totalIncome -
        (getTransactionSummary sd ed db).totalExpenses
  ∧ (getTransactionSummary sd ed db).transactionCount =
      (db.transactions.filter (inRange sd ed)).length
  ∧ (db.transactions.filter (inRange sd ed) = [] →
      getTransactionSummary sd ed db =
        { totalIncome := 0, totalExpenses := 0, balance := 0, transactionCount := 0 }) := by
  refine ⟨?_, ?_, ?_, ?_, ?_⟩
  · simp [getTransactionSummary, sqlSum_getD]
  · simp [getTransactionSummary, sqlSum_getD]
  · simp [getTransactionSummary]
  · simp [getTransactionSummary]
  · intro h
    rw [List.filter_eq_nil_iff] at h
    have hinc : db.transactions.filter
        (fun t => t.type == TransactionType.income && inRange sd ed t) = [] := by
      rw [List.filter_eq_nil_iff]
      intro a ha
      simp [h a ha]
    have hexp : db.transactions.filter
        (fun t => t.type == TransactionType.expense && inRange sd ed t) = [] := by
      rw [List.filter_eq_nil_iff]
      intro a ha
      simp [h a ha]
    have hcnt : db.transactions.filter (inRange sd ed) = [] := by
      rw [List.filter_eq_nil_iff]
      intro a ha
      simp [h a ha]
    simp [getTransactionSummary, hinc, hexp, hcnt, sqlSum]

/-- C1 witness: the summary evaluated on a concrete store whose single transaction lies
outside the queried range is all zeros. -/
theorem getTransactionSummary_spec_witness :
    getTransactionSummary 10 20 sampleDB =
      { totalIncome := 0, totalExpenses := 0, balance := 0, transactionCount := 0 } :=
  (getTransactionSummary_spec sampleDB 10 20).2.2.2.2 (by decide)

/-- C5 counterexample: on a fresh empty store, initDatabase seeds the settings row with
danger-zone amount 100, not 0 as the claim states. -/
theorem initSeed_counterexample :
    ((initDatabase 7 freshState).store.settings.map
      (fun r => r.dangerZoneAmount)) = [100] ∧ (100 : Rat) ≠ 0 := by
  decide

/-- C5 amended: on first initialization, iff the settings table is empty, initDatabase
seeds exactly one settings row with danger-zone amount = 100, currency USD, theme
system, and notifications enabled (stored flag 1). -/
theorem initSeed_spec (s : AppState) (now : Int) (h : s.conn = false) :
    (s.store.settings = [] →
      (initDatabase now s).store.settings =
        [{ id := "default", dangerZoneAmount := 100, currency := "USD",
           theme := "system", notificationsEnabled := 1,
           createdAt := now, updatedAt := now }])
  ∧ (s.store.settings ≠ [] →
      (initDatabase now s).store.settings = s.store.settings) := by
  constructor <;> intro h2 <;>
    simp [initDatabase, h, defaultSettingsRow, List.isEmpty_iff, h2]

/-- C5 witness: the amended seeding behaviour evaluated on the fresh state. -/
theorem initSeed_spec_witness :
    (initDatabase 7 freshState).store.settings =
      [{ id := "default", dangerZoneAmount := 100, currency := "USD",
         theme := "system", notificationsEnabled := 1,
         createdAt := 7, updatedAt := 7 }] :=
  (initSeed_spec freshState 7 rfl).1 rfl

/-- C6: adding a transaction (with a primary-key-fresh generated id) and then fetching by
the returned id yields exactly the returned record, for every input, whether or not the
optional description and timestamp are supplied. -/
theorem addTransaction_roundTrip (input : TransactionInput) (newId : String) (now : Int)
    (db : DB) (h : ∀ t ∈ db.transactions, t.id ≠ newId) :
    ∃ t db2, addTransaction input newId now db = some (t, db2) ∧
      getTransactionById t.id db2 = some t := by
  have hany : db.transactions.any (fun u => u.id == newId) = false := by
    rw [List.any_eq_false]
    intro t ht
    simpa using h t ht
  have hnone : db.transactions.find? (fun u => u.id == newId) = none := by
    rw [List.find?_eq_none]
    intro t ht
    simpa using h t ht
  have step : addTransaction input newId now db =
      some ({ id := newId, amount := input.amount, type := input.type,
              category := input.category, description := input.description,
              timestamp := input.timestamp.getD now, createdAt := now, updatedAt := now },
            { db with transactions := db.transactions ++
                [{ id := newId, amount := input.amount, type := input.type,
                   category := input.category, description := input.description,
                   timestamp := input.timestamp.getD now, createdAt := now,
                   updatedAt := now }] }) := by
    simp [addTransaction, hany]
  refine ⟨_, _, step, ?_⟩
  simp [getTransactionById, List.find?_append, hnone]

/-- C6 witness: round trip on the empty store with a concrete input lacking both optional
fields. -/
theorem addTransaction_roundTrip_witness :
    ∃ t db2,
      addTransaction
        { amount := 3, type := TransactionType.expense, category := "food",
          description := none, timestamp := none } "id1" 4 freshDB = some (t, db2) ∧
      getTransactionById t.id db2 = some t :=
  addTransaction_roundTrip
    { amount := 3, type := TransactionType.expense, category := "food",
      description := none, timestamp := none } "id1" 4 freshDB (by simp [freshDB])

/-- C7: initDatabase is idempotent: with a live connection it returns the state unchanged;
a second call is always the identity; from a fresh empty state one call yields a live
connection and exactly one settings row; and a one-row settings table stays one row. -/
theorem initDatabase_idempotent :
    (∀ (s : AppState) (now : Int), s.conn = true → initDatabase now s = s)
  ∧ (∀ (s : AppState) (n1 n2 : Int),
      initDatabase n2 (initDatabase n1 s) = initDatabase n1 s)
  ∧ (∀ (s : AppState) (now : Int), s.conn = false → s.store.settings = [] →
      (initDatabase now s).conn = true ∧
        (initDatabase now s).store.settings.length = 1)
  ∧ (∀ (s : AppState) (now : Int), s.store.settings.length = 1 →
      (initDatabase now s).store.settings.length = 1) := by
  have hconn : ∀ (s : AppState) (now : Int), (initDatabase now s).conn = true := by
    intro s now
    by_cases h : s.conn <;> simp [initDatabase, h]
  have hlive : ∀ (s : AppState) (now : Int), s.conn = true → initDatabase now s = s := by
    intro s now h
    simp [initDatabase, h]
  refine ⟨hlive, ?_, ?_, ?_⟩
  · intro s n1 n2
    exact hlive _ n2 (hconn s n1)
  · intro s now h h2
    simp [initDatabase, h, h2, List.isEmpty_iff]
  · intro s now h
    by_cases hc : s.conn
    · simp [initDatabase, hc, h]
    · have hne : s.store.settings ≠ [] := by
        intro hnil
        rw [hnil] at h
        simp at h
      simp [initDatabase, hc, List.isEmpty_iff, hne, h]

/-- C7 witness: two initializations from the fresh state equal one, which yields a live
connection and a single settings row. -/
theorem initDatabase_idempotent_witness :
    initDatabase 9 (initDatabase 7 freshState) = initDatabase 7 freshState
  ∧ (initDatabase 7 freshState).conn = true
  ∧ (initDatabase 7 freshState).store.settings.length = 1 :=
  ⟨initDatabase_idempotent.2.1 freshState 7 9,
   initDatabase_idempotent.2.2.1 freshState 7 rfl rfl⟩

/-- C8: deleting an id with no matching row returns false and leaves the store unchanged;
deleting an existing id returns true and the id subsequently resolves to the absence
signal. -/
theorem deleteTransaction_spec (id : String) (db : DB) :
    ((∀ t ∈ db.transactions, t.id ≠ id) → deleteTransaction id db = (false, db))
  ∧ (∀ t0, t0 ∈ db.transactions → t0.id = id →
      (deleteTransaction id db).1 = true ∧
        getTransactionById id (deleteTransaction id db).2 = none) := by
  constructor
  · intro h
    have hfil : db.transactions.filter (fun t => !(t.id == id)) = db.transactions := by
      rw [List.filter_eq_self]
      intro t ht
      simpa using h t ht
    simp [deleteTransaction, hfil]
  · intro t0 ht0 hid
    have hlt := length_filter_lt (p := fun t : Transaction => !(t.id == id)) ht0
      (by simp [hid])
    constructor
    · simp [deleteTransaction, hlt]
    · simp only [deleteTransaction, getTransactionById]
      rw [List.find?_eq_none]
      intro x hx
      have := List.of_mem_filter hx
      simpa using this

/-- C8 witness: both delete branches evaluated on a concrete one-row store. -/
theorem deleteTransaction_spec_witness :
    deleteTransaction "zz" sampleDB = (false, sampleDB)
  ∧ (deleteTransaction "t1" sampleDB).1 = true
  ∧ getTransactionById "t1" (deleteTransaction "t1" sampleDB).2 = none :=
  ⟨(deleteTransaction_spec "zz" sampleDB).1 (by decide),
   (deleteTransaction_spec "t1" sampleDB).2 sampleTxn (by decide) rfl⟩

/-- A truthy optional string (not the empty string) survives the truthiness test. -/
theorem truthyStr_of_ne {c : Option String} (h : c ≠ some "") : truthyStr c = c := by
  cases c with
  | none => rfl
  | some s =>
    have hs : s ≠ "" := by
      intro hnil
      exact h (by rw [hnil])
    simp [truthyStr, hs]

/-- A truthy optional number (nonzero) survives the truthiness test. -/
theorem truthyInt_of_ne {v : Option Int} (h : v ≠ some 0) : truthyInt v = v := by
  cases v with
  | none => rfl
  | some n =>
    have hn : n ≠ 0 := by
      intro hz
      exact h (by rw [hz])
    simp [truthyInt, hn]

/-- The query of the C4 counterexample: only an endDate filter, with value 0, which is
falsy in JavaScript and therefore silently dropped from the WHERE clause. -/
def zeroEndQuery : TransactionQuery := { emptyQuery with endDate := some 0 }

/-- C4 counterexample: with a supplied endDate of 0, the stored transaction at timestamp 5
violates the supplied inclusive bound, yet getTransactions still returns it, so the
result is not the set of rows satisfying the conjunction of supplied filters. -/
theorem getTransactions_filter_counterexample :
    getTransactions zeroEndQuery sampleDB = some [sampleTxn]
  ∧ claimMatches zeroEndQuery sampleTxn = false := by
  decide

/-- Dropping the falsy filter values from a query: a supplied category equal to the empty
string and supplied numeric values equal to 0 are removed, as if the filter had been
omitted. -/
def normalizeQuery (q : TransactionQuery) : TransactionQuery :=
  { type := q.type, category := truthyStr q.category, startDate := truthyInt q.startDate,
    endDate := truthyInt q.endDate, limit := truthyInt q.limit,
    offset := truthyInt q.offset }

/-- The truthiness test is idempotent on optional strings. -/
theorem truthyStr_idem (c : Option String) : truthyStr (truthyStr c) = truthyStr c := by
  cases c with
  | none => rfl
  | some s =>
    by_cases hs : s = "" <;> simp [truthyStr, hs]

/-- The truthiness test is idempotent on optional numbers. -/
theorem truthyInt_idem (v : Option Int) : truthyInt (truthyInt v) = truthyInt v := by
  cases v with
  | none => rfl
  | some n =>
    by_cases hn : n = 0 <;> simp [truthyInt, hn]

/-- The WHERE clause built for a query equals the one built for its normalization. -/
theorem txnWhere_normalize (q : TransactionQuery) (t : Transaction) :
    txnWhere (normalizeQuery q) t = txnWhere q t := by
  unfold txnWhere normalizeQuery
  dsimp only
  rw [truthyStr_idem, truthyInt_idem, truthyInt_idem]

/-- When the supplied category is not the empty string and the supplied bounds are
nonzero, the built WHERE clause coincides with the claim-side conjunction of the
supplied filters. -/
theorem txnWhere_eq_claimMatches (q : TransactionQuery)
    (hc : q.category ≠ some "") (hs : q.startDate ≠ some 0) (he : q.endDate ≠ some 0)
    (t : Transaction) : txnWhere q t = claimMatches q t := by
  unfold txnWhere claimMatches
  rw [truthyStr_of_ne hc, truthyInt_of_ne hs, truthyInt_of_ne he]
  cases q.type <;> cases q.category <;> cases q.startDate <;> cases q.endDate <;> rfl

/-- C4 amended: a supplied filter whose value is falsy in JavaScript (the number 0 or the
empty string) is silently ignored, exactly as if omitted — for every call. For truthy
supplied values: type, category and the inclusive timestamp bounds AND-combine and each
omitted filter imposes no constraint; with neither limit nor offset the result is
exactly the stored transactions satisfying that conjunction, ordered by event timestamp
descending, and with no filters at all every stored transaction is returned. A truthy
limit truncates the ordered result, after first skipping the rows of a truthy offset;
a truthy offset supplied without a truthy limit yields an SQL error instead of a
result. -/
theorem getTransactions_filter_spec :
    (∀ (q : TransactionQuery) (db : DB),
      getTransactions q db = getTransactions (normalizeQuery q) db)
  ∧ (∀ (q : TransactionQuery) (db : DB),
      q.category ≠ some "" → q.startDate ≠ some 0 → q.endDate ≠ some 0 →
      q.limit = none → q.offset = none →
      ∃ l, getTransactions q db = some l ∧
        l.Perm (db.transactions.filter (claimMatches q)) ∧
        List.Sorted tsDesc l ∧
        ((q.type = none ∧ q.category = none ∧ q.startDate = none ∧ q.endDate = none) →
          l.Perm db.transactions))
  ∧ (∀ (q : TransactionQuery) (db : DB) (n : Int),
      q.category ≠ some "" → q.startDate ≠ some 0 → q.endDate ≠ some 0 →
      q.limit = some n → n ≠ 0 →
      ∃ m, m.Perm (db.transactions.filter (claimMatches q)) ∧
        List.Sorted tsDesc m ∧
        getTransactions q db =
          some (sqlLimit n (m.drop ((truthyInt q.offset).getD 0).toNat)))
  ∧ (∀ (q : TransactionQuery) (db : DB) (k : Int),
      (q.limit = none ∨ q.limit = some 0) → q.offset = some k → k ≠ 0 →
      getTransactions q db = none) := by
  refine ⟨?_, ?_, ?_, ?_⟩
  · intro q db
    unfold getTransactions
    rw [List.filter_congr
      (fun t (ht : t ∈ db.transactions) => txnWhere_normalize q t)]
    dsimp only [normalizeQuery]
    rw [truthyInt_idem, truthyInt_idem]
  · intro q db hc hs he hl ho
    have hfil : db.transactions.filter (txnWhere q) =
        db.transactions.filter (claimMatches q) :=
      List.filter_congr
        (fun t (ht : t ∈ db.transactions) => txnWhere_eq_claimMatches q hc hs he t)
    refine ⟨List.insertionSort tsDesc (db.transactions.filter (txnWhere q)),
      ?_, ?_, ?_, ?_⟩
    · simp [getTransactions, hl, ho, truthyInt]
    · rw [hfil]
      exact List.perm_insertionSort tsDesc _
    · exact List.sorted_insertionSort tsDesc _
    · rintro ⟨h1, h2, h3, h4⟩
      have hall : db.transactions.filter (claimMatches q) = db.transactions := by
        rw [List.filter_eq_self]
        intro a _
        simp [claimMatches, h1, h2, h3, h4]
      rw [hfil, hall]
      exact List.perm_insertionSort tsDesc _
  · intro q db n hc hs he hn hn0
    have hfil : db.transactions.filter (txnWhere q) =
        db.transactions.filter (claimMatches q) :=
      List.filter_congr
        (fun t (ht : t ∈ db.transactions) => txnWhere_eq_claimMatches q hc hs he t)
    have htl : truthyInt q.limit = some n := by
      rw [hn]
      simp [truthyInt, hn0]
    refine ⟨List.insertionSort tsDesc (db.transactions.filter (txnWhere q)),
      ?_, ?_, ?_⟩
    · rw [hfil]
      exact List.perm_insertionSort tsDesc _
    · exact List.sorted_insertionSort tsDesc _
    · cases hoff : truthyInt q.offset with
      | none => simp [getTransactions, htl, hoff]
      | some k => simp [getTransactions, htl, hoff]
  · intro q db k hl hk hk0
    have htl : truthyInt q.limit = none := by
      rcases hl with h | h <;> simp [truthyInt, h]
    have hto : truthyInt q.offset = some k := by
      rw [hk]
      simp [truthyInt, hk0]
    simp [getTransactions, htl, hto]

/-- The query of the C4 witness conjunction case: truthy type and category filters. -/
def foodExpenseQuery : TransactionQuery :=
  { emptyQuery with type := some TransactionType.expense, category := some "food" }

/-- The query of the C4 witness truncation case: limit 1 after skipping offset 1. -/
def limitOffsetQuery : TransactionQuery :=
  { emptyQuery with limit := some 1, offset := some 1 }

/-- The query of the C4 witness error case: a truthy offset with no limit. -/
def offsetOnlyQuery : TransactionQuery := { emptyQuery with offset := some 2 }

/-- C4 witness: all four amended clauses evaluated at concrete queries and a concrete
store — a falsy endDate normalizes away, the conjunction case, the limit and offset
truncation case, and the offset-without-limit error case. -/
theorem getTransactions_filter_spec_witness :
    getTransactions zeroEndQuery sampleDB =
      getTransactions (normalizeQuery zeroEndQuery) sampleDB
  ∧ (∃ l, getTransactions foodExpenseQuery sampleDB = some l ∧
      l.Perm (sampleDB.transactions.filter (claimMatches foodExpenseQuery)) ∧
      List.Sorted tsDesc l ∧
      ((foodExpenseQuery.type = none ∧ foodExpenseQuery.category = none ∧
        foodExpenseQuery.startDate = none ∧ foodExpenseQuery.endDate = none) →
        l.Perm sampleDB.transactions))
  ∧ (∃ m, m.Perm (sampleDB.transactions.filter (claimMatches limitOffsetQuery)) ∧
      List.Sorted tsDesc m ∧
      getTransactions limitOffsetQuery sampleDB =
        some (sqlLimit 1 (m.drop ((truthyInt limitOffsetQuery.offset).getD 0).toNat)))
  ∧ getTransactions offsetOnlyQuery sampleDB = none :=
  ⟨getTransactions_filter_spec.1 zeroEndQuery sampleDB,
   getTransactions_filter_spec.2.1 foodExpenseQuery sampleDB (by decide) (by decide)
     (by decide) rfl rfl,
   getTransactions_filter_spec.2.2.1 limitOffsetQuery sampleDB 1 (by decide) (by decide)
     (by decide) rfl (by decide),
   getTransactions_filter_spec.2.2.2 offsetOnlyQuery sampleDB 2 (Or.inl rfl) rfl
     (by decide)⟩

/-- Pairing each element of a deduplicated list with a computed value keeps the first
components duplicate-free. -/
theorem nodup_map_fst_pairing {α β : Type} [DecidableEq α] (l : List α) (f : α → β) :
    ((l.dedup.map (fun c => (c, f c))).map Prod.fst).Nodup := by
  rw [List.map_map]
  have hcomp : (Prod.fst ∘ fun c => (c, f c)) = fun c : α => c := funext (fun c => rfl)
  rw [hcomp]
  simpa using List.nodup_dedup l

/-- C9: category spending over an inclusive range has one entry per category owning at
least one expense transaction in range (income rows never counted), each entry summing
the expense amounts of that category in range, and entries are sorted descending by total. -/
theorem getSpendingByCategory_spec (sd ed : Int) (db : DB) :
    (∀ p : String × Rat, p ∈ getSpendingByCategory sd ed db ↔
      (p.1 ∈ (db.transactions.filter
          (fun t => t.type == TransactionType.expense && inRange sd ed t)).map
            (fun t => t.category)
       ∧ p.2 = (((db.transactions.filter
          (fun t => t.type == TransactionType.expense && inRange sd ed t)).filter
            (fun t => t.category == p.1)).map (fun t => t.amount)).sum))
  ∧ ((getSpendingByCategory sd ed db).map Prod.fst).Nodup
  ∧ List.Sorted totalDesc (getSpendingByCategory sd ed db) := by
  refine ⟨?_, ?_, ?_⟩
  · rintro ⟨a, b⟩
    constructor
    · intro hp
      simp only [getSpendingByCategory, List.mem_insertionSort, List.mem_map,
        List.mem_dedup] at hp
      obtain ⟨c, hc, hpc⟩ := hp
      obtain ⟨h1, h2⟩ := Prod.mk.injEq .. ▸ hpc
      constructor
      · simp only [List.mem_map]
        subst h1
        simpa using hc
      · subst h1
        exact h2.symm
    · rintro ⟨h1, h2⟩
      dsimp only at h1 h2
      simp only [getSpendingByCategory, List.mem_insertionSort, List.mem_map,
        List.mem_dedup]
      subst h2
      exact ⟨a, by simpa using h1, rfl⟩
  · have hperm := (List.perm_insertionSort totalDesc
      (((db.transactions.filter
        (fun t => t.type == TransactionType.expense && inRange sd ed t)).map
          (fun t => t.category)).dedup.map
        (fun c => (c, (((db.transactions.filter
          (fun t => t.type == TransactionType.expense && inRange sd ed t)).filter
            (fun t => t.category == c)).map (fun t => t.amount)).sum)))).map Prod.fst
    exact hperm.nodup_iff.mpr (nodup_map_fst_pairing _ _)
  · exact List.sorted_insertionSort totalDesc _

/-- C9 witness: the sample expense of 7 in category food appears as a concrete entry. -/
theorem getSpendingByCategory_spec_witness :
    ("food", (7 : Rat)) ∈ getSpendingByCategory 0 100 sampleDB :=
  ((getSpendingByCategory_spec 0 100 sampleDB).1 ("food", 7)).mpr
    ⟨by decide, by norm_num [sampleDB, sampleTxn, freshDB, inRange, List.filter]⟩

/-- C10: getSubscriptions returns all stored subscriptions ordered by next billing date
ascending, with the stored integer notification flag decoded to a boolean, 1 mapping to
true and anything else to false. -/
theorem getSubscriptions_spec (db : DB) :
    List.Sorted billingAscSub (getSubscriptions db)
  ∧ (getSubscriptions db).Perm (db.subscriptions.map decodeSubscription)
  ∧ (∀ r : SubscriptionRow,
      ((decodeSubscription r).notificationEnabled = true ↔ r.notificationEnabled = 1)) := by
  refine ⟨?_, ?_, ?_⟩
  · have hs := List.sorted_insertionSort billingAsc db.subscriptions
    exact List.pairwise_map.mpr hs
  · exact (List.perm_insertionSort billingAsc db.subscriptions).map decodeSubscription
  · intro r
    simp [decodeSubscription]

/-- A stored subscription row with the notification flag set to 1. -/
def sampleSubRow : SubscriptionRow :=
  { id := "s1", name := "n", amount := 5, currency := "USD",
    billingPeriod := Period.monthly, nextBillingDate := 3, notificationEnabled := 1,
    category := "entertainment", createdAt := 0, updatedAt := 0 }

/-- A store holding just sampleSubRow. -/
def sampleSubDB : DB := { freshDB with subscriptions := [sampleSubRow] }

/-- C10 witness: the stored flag 1 decodes to true on a concrete row. -/
theorem getSubscriptions_spec_witness :
    (decodeSubscription sampleSubRow).notificationEnabled = true :=
  ((getSubscriptions_spec sampleSubDB).2.2 sampleSubRow).mpr rfl

/-- The DO UPDATE arm never changes the category of a row. -/
theorem updateBudgetRow_category (c : String) (a : Rat) (p : Period) (n : Int)
    (b : Budget) : (updateBudgetRow c a p n b).category = b.category := by
  unfold updateBudgetRow
  split <;> rfl

/-- The DO UPDATE arm never changes the id of a row. -/
theorem updateBudgetRow_id (c : String) (a : Rat) (p : Period) (n : Int)
    (b : Budget) : (updateBudgetRow c a p n b).id = b.id := by
  unfold updateBudgetRow
  split <;> rfl

/-- The DO UPDATE arm never changes the createdAt of a row. -/
theorem updateBudgetRow_createdAt (c : String) (a : Rat) (p : Period) (n : Int)
    (b : Budget) : (updateBudgetRow c a p n b).createdAt = b.createdAt := by
  unfold updateBudgetRow
  split <;> rfl

/-- Applying the DO UPDATE arm across a table keeps the category column unchanged. -/
theorem map_updateBudgetRow_category (c : String) (a : Rat) (p : Period) (n : Int)
    (l : List Budget) :
    (l.map (updateBudgetRow c a p n)).map (fun b => b.category) =
      l.map (fun b => b.category) := by
  rw [List.map_map]
  exact List.map_congr_left (fun b _ => updateBudgetRow_category c a p n b)

/-- setBudget preserves the UNIQUE constraint on the category column. -/
theorem setBudget_preserves_unique (c : String) (a : Rat) (p : Period) (i : String)
    (n : Int) (db db2 : DB) (b : Budget) (h : budgetCategoriesUnique db)
    (hset : setBudget c a p i n db = some (b, db2)) : budgetCategoriesUnique db2 := by
  by_cases h1 : db.budgets.any (fun x => x.category == c)
  · simp only [setBudget, h1, if_true, Option.some.injEq, Prod.mk.injEq] at hset
    obtain ⟨-, hdb2⟩ := hset
    unfold budgetCategoriesUnique
    rw [← hdb2]
    dsimp only
    rw [map_updateBudgetRow_category]
    exact h
  · rw [Bool.not_eq_true] at h1
    by_cases h2 : db.budgets.any (fun x => x.id == i)
    · simp [setBudget, h1, h2] at hset
    · rw [Bool.not_eq_true] at h2
      simp only [setBudget, h1, h2, Bool.false_eq_true, if_false, Option.some.injEq,
        Prod.mk.injEq] at hset
      obtain ⟨-, hdb2⟩ := hset
      unfold budgetCategoriesUnique
      rw [← hdb2]
      rw [List.any_eq_false] at h1
      simp only [List.map_append, List.map_cons, List.map_nil]
      rw [List.nodup_append]
      refine ⟨h, List.nodup_singleton _, ?_⟩
      intro x hx hx1
      simp only [List.mem_singleton] at hx1
      rw [List.mem_map] at hx
      obtain ⟨bb, hbb, hbc⟩ := hx
      exact h1 bb hbb (by simp [hbc, hx1])

/-- After setBudget succeeds, some stored row carries the written category. -/
theorem setBudget_mem_category (c : String) (a : Rat) (p : Period) (i : String)
    (n : Int) (db db2 : DB) (b : Budget)
    (hset : setBudget c a p i n db = some (b, db2)) :
    ∃ r ∈ db2.budgets, r.category = c := by
  by_cases h1 : db.budgets.any (fun x => x.category == c)
  · simp only [setBudget, h1, if_true, Option.some.injEq, Prod.mk.injEq] at hset
    obtain ⟨-, hdb2⟩ := hset
    rw [List.any_eq_true] at h1
    obtain ⟨r0, hr0, hr0c⟩ := h1
    refine ⟨updateBudgetRow c a p n r0, ?_, ?_⟩
    · rw [← hdb2]
      exact List.mem_map.mpr ⟨r0, hr0, rfl⟩
    · rw [updateBudgetRow_category]
      exact beq_iff_eq.mp hr0c
  · rw [Bool.not_eq_true] at h1
    by_cases h2 : db.budgets.any (fun x => x.id == i)
    · simp [setBudget, h1, h2] at hset
    · rw [Bool.not_eq_true] at h2
      simp only [setBudget, h1, h2, Bool.false_eq_true, if_false, Option.some.injEq,
        Prod.mk.injEq] at hset
      obtain ⟨hb, hdb2⟩ := hset
      refine ⟨b, ?_, ?_⟩
      · rw [← hdb2]
        simp only [List.mem_append, List.mem_singleton]
        exact Or.inr hb.symm
      · rw [← hb]

/-- Under the UNIQUE constraint, filtering the budgets table by a category held by a
member row yields exactly that row. -/
theorem filter_category_singleton {l : List Budget} {c : String}
    (h : (l.map Budget.category).Nodup) {r0 : Budget} (hr0 : r0 ∈ l)
    (hc : r0.category = c) : l.filter (fun x => x.category == c) = [r0] := by
  induction l with
  | nil => cases hr0
  | cons a l ih =>
    simp only [List.map_cons, List.nodup_cons] at h
    obtain ⟨hnotin, hnd⟩ := h
    cases hr0 with
    | head =>
      rw [List.filter_cons, if_pos (by simp [hc])]
      have hnil : l.filter (fun x => x.category == c) = [] := by
        rw [List.filter_eq_nil_iff]
        intro x hx hxc
        exact hnotin (by
          rw [← hc] at hxc
          rw [beq_iff_eq] at hxc
          rw [← hxc]
          exact List.mem_map.mpr ⟨x, hx, rfl⟩)
      rw [hnil]
    | tail b hr0 =>
      have hne : (a.category == c) = false := by
        rw [beq_eq_false_iff_ne]
        intro hac
        exact hnotin (by
          rw [hac, ← hc]
          exact List.mem_map.mpr ⟨r0, hr0, rfl⟩)
      rw [List.filter_cons, if_neg (by simp [hne])]
      exact ih hnd hr0

/-- C2: the budgets table never holds two rows of one category: the uniqueness invariant
is preserved by setBudget, deleteBudget and clearAllData, and setting a budget twice for
one category leaves exactly one row for it, carrying the second amount and period with
the updated timestamp overwritten. -/
theorem budgets_unique_spec :
    (∀ (c : String) (a : Rat) (p : Period) (i : String) (n : Int) (db db2 : DB)
      (b : Budget), budgetCategoriesUnique db →
      setBudget c a p i n db = some (b, db2) → budgetCategoriesUnique db2)
  ∧ (∀ (c : String) (db : DB), budgetCategoriesUnique db →
      budgetCategoriesUnique (deleteBudget c db).2)
  ∧ (∀ db : DB, budgetCategoriesUnique db → budgetCategoriesUnique (clearAllData db))
  ∧ (∀ (c : String) (a1 a2 : Rat) (p1 p2 : Period) (i1 i2 : String) (n1 n2 : Int)
      (db db1 db2 : DB) (b1 b2 : Budget),
      budgetCategoriesUnique db →
      setBudget c a1 p1 i1 n1 db = some (b1, db1) →
      setBudget c a2 p2 i2 n2 db1 = some (b2, db2) →
      ∃ r, db2.budgets.filter (fun x => x.category == c) = [r] ∧
        r.amount = a2 ∧ r.period = p2 ∧ r.updatedAt = n2) := by
  refine ⟨setBudget_preserves_unique, ?_, ?_, ?_⟩
  · intro c db h
    unfold budgetCategoriesUnique at h ⊢
    exact ((List.filter_sublist db.budgets).map Budget.category).nodup h
  · intro db _
    unfold budgetCategoriesUnique clearAllData
    simp
  · intro c a1 a2 p1 p2 i1 i2 n1 n2 db db1 db2 b1 b2 h hset1 hset2
    have hu1 := setBudget_preserves_unique c a1 p1 i1 n1 db db1 b1 h hset1
    obtain ⟨r1, hr1, hr1c⟩ := setBudget_mem_category c a1 p1 i1 n1 db db1 b1 hset1
    have hany : db1.budgets.any (fun x => x.category == c) = true := by
      rw [List.any_eq_true]
      exact ⟨r1, hr1, by simp [hr1c]⟩
    simp only [setBudget, hany, if_true, Option.some.injEq, Prod.mk.injEq] at hset2
    obtain ⟨-, hdb2⟩ := hset2
    refine ⟨updateBudgetRow c a2 p2 n2 r1, ?_, ?_, ?_, ?_⟩
    · rw [← hdb2]
      refine filter_category_singleton ?_ (List.mem_map.mpr ⟨r1, hr1, rfl⟩)
        (by rw [updateBudgetRow_category, hr1c])
      rw [map_updateBudgetRow_category]
      exact hu1
    · simp [updateBudgetRow, hr1c]
    · simp [updateBudgetRow, hr1c]
    · simp [updateBudgetRow, hr1c]

/-- Budget table value after the first witness upsert. -/
def c2b1 : Budget :=
  { id := "i1", category := "food", amount := 10, period := Period.monthly,
    createdAt := 1, updatedAt := 1 }

/-- Store after the first witness upsert. -/
def c2db1 : DB := { freshDB with budgets := [c2b1] }

/-- Record returned by the second witness upsert. -/
def c2b2 : Budget :=
  { id := "i2", category := "food", amount := 20, period := Period.yearly,
    createdAt := 2, updatedAt := 2 }

/-- Store after the second witness upsert: one row, second amount and period, original id
and creation timestamp, overwritten update timestamp. -/
def c2db2 : DB :=
  { freshDB with budgets :=
      [{ id := "i1", category := "food", amount := 20, period := Period.yearly,
         createdAt := 1, updatedAt := 2 }] }

/-- C2 witness: two concrete upserts for category food leave exactly one row carrying the
second amount, period and update timestamp. -/
theorem budgets_unique_spec_witness :
    ∃ r, c2db2.budgets.filter (fun x => x.category == "food") = [r] ∧
      r.amount = 20 ∧ r.period = Period.yearly ∧ r.updatedAt = 2 :=
  budgets_unique_spec.2.2.2 "food" 10 20 Period.monthly Period.yearly "i1" "i2" 1 2
    freshDB c2db1 c2db2 c2b1 c2b2 (by decide) (by decide) (by decide)

/-- The pre-existing budget row of the C3 scenario. -/
def c3row : Budget :=
  { id := "a", category := "food", amount := 1, period := Period.monthly,
    createdAt := 0, updatedAt := 0 }

/-- Store holding one budget for category food before the C3 upsert. -/
def c3db : DB := { freshDB with budgets := [c3row] }

/-- C3 counterexample: upserting an already-budgeted category succeeds, yet the returned
record (with its freshly generated id b and creation timestamp 5) is not any stored row:
the persisted row keeps id a and creation timestamp 0, so the return value is not the
record as stored. -/
theorem setBudget_return_counterexample :
    (setBudget "food" 2 Period.weekly "b" 5 c3db).map
      (fun pr => (decide (pr.1 ∈ pr.2.budgets),
        pr.2.budgets.map (fun r => (r.id, r.createdAt)),
        (pr.1.id, pr.1.createdAt))) =
      some (false, [("a", 0)], ("b", 5)) := by
  decide

/-- C3 amended: for setBudget on a category with no existing budget, the returned record
is exactly the row persisted (appended to the table), with the generated id and write
timestamps; on a category that already has a budget, the persisted row agrees with the
returned record on amount, period and update timestamp but keeps its original id and
creation timestamp, while the returned record carries a fresh id and creation
timestamp. -/
theorem setBudget_return_spec :
    (∀ (c : String) (a : Rat) (p : Period) (i : String) (n : Int) (db db2 : DB)
      (b : Budget), (∀ r ∈ db.budgets, r.category ≠ c) →
      setBudget c a p i n db = some (b, db2) →
      db2.budgets = db.budgets ++ [b] ∧ b.id = i ∧ b.createdAt = n ∧ b.amount = a ∧
        b.period = p ∧ b.updatedAt = n ∧ b.category = c)
  ∧ (∀ (c : String) (a : Rat) (p : Period) (i : String) (n : Int) (db db2 : DB)
      (b : Budget) (r0 : Budget), budgetCategoriesUnique db → r0 ∈ db.budgets →
      r0.category = c → setBudget c a p i n db = some (b, db2) →
      b.id = i ∧ b.createdAt = n ∧
      ∃ r, db2.budgets.filter (fun x => x.category == c) = [r] ∧
        r.amount = b.amount ∧ r.period = b.period ∧ r.updatedAt = b.updatedAt ∧
        r.id = r0.id ∧ r.createdAt = r0.createdAt) := by
  constructor
  · intro c a p i n db db2 b h hset
    have h1 : db.budgets.any (fun x => x.category == c) = false := by
      rw [List.any_eq_false]
      intro x hx
      simpa using h x hx
    by_cases h2 : db.budgets.any (fun x => x.id == i)
    · simp [setBudget, h1, h2] at hset
    · rw [Bool.not_eq_true] at h2
      simp only [setBudget, h1, h2, Bool.false_eq_true, if_false, Option.some.injEq,
        Prod.mk.injEq] at hset
      obtain ⟨hb, hdb2⟩ := hset
      rw [← hb, ← hdb2]
      exact ⟨rfl, rfl, rfl, rfl, rfl, rfl, rfl⟩
  · intro c a p i n db db2 b r0 h hr0 hr0c hset
    have hany : db.budgets.any (fun x => x.category == c) = true := by
      rw [List.any_eq_true]
      exact ⟨r0, hr0, by simp [hr0c]⟩
    simp only [setBudget, hany, if_true, Option.some.injEq, Prod.mk.injEq] at hset
    obtain ⟨hb, hdb2⟩ := hset
    refine ⟨by rw [← hb], by rw [← hb], updateBudgetRow c a p n r0, ?_, ?_, ?_, ?_, ?_, ?_⟩
    · rw [← hdb2]
      refine filter_category_singleton ?_ (List.mem_map.mpr ⟨r0, hr0, rfl⟩)
        (by rw [updateBudgetRow_category, hr0c])
      rw [map_updateBudgetRow_category]
      exact h
    · rw [← hb]
      simp [updateBudgetRow, hr0c]
    · rw [← hb]
      simp [updateBudgetRow, hr0c]
    · rw [← hb]
      simp [updateBudgetRow, hr0c]
    · exact updateBudgetRow_id c a p n r0
    · exact updateBudgetRow_createdAt c a p n r0

/-- Record returned by the C3 witness upsert. -/
def c3ret : Budget :=
  { id := "b", category := "food", amount := 2, period := Period.weekly,
    createdAt := 5, updatedAt := 5 }

/-- Store after the C3 witness upsert. -/
def c3db2 : DB :=
  { freshDB with budgets :=
      [{ id := "a", category := "food", amount := 2, period := Period.weekly,
         createdAt := 0, updatedAt := 5 }] }

/-- C3 witness: the amended return contract evaluated on the concrete one-budget store. -/
theorem setBudget_return_spec_witness :
    c3ret.id = "b" ∧ c3ret.createdAt = 5 ∧
    ∃ r, c3db2.budgets.filter (fun x => x.category == "food") = [r] ∧
      r.amount = c3ret.amount ∧ r.period = c3ret.period ∧ r.updatedAt = c3ret.updatedAt ∧
      r.id = c3row.id ∧ r.createdAt = c3row.createdAt :=
  setBudget_return_spec.2 "food" 2 Period.weekly "b" 5 c3db c3db2 c3ret c3row
    (by decide) (by decide) rfl (by decide)

end Budgie
